import Mathlib

/-!
Verification development for the `ms-cors` development-time CORS proxy
(`src/index.js`).  The JavaScript source is shallowly embedded: each regular
expression of the source is translated into an executable matcher on
`List Char` that mirrors the (deterministic) backtracking behaviour of the
JavaScript engine on that particular pattern, and each handler into a pure
Lean function.  JavaScript `.` (without the `s` flag) does not match line
terminators, which the embedding models via `isRegexDot`; `$`-substitution in
`String.prototype.replace` replacement templates is modelled by `expandTpl`.
-/

/-- Line terminators, the characters JavaScript's `.` does not match
(ECMA-262 `LineTerminator`: LF, CR, LS, PS). -/
def isLineTerminator (c : Char) : Bool :=
  c = '\n' || c = '\r' || c = Char.ofNat 8232 || c = Char.ofNat 8233

/-- Characters matched by `.` in a JavaScript regex without the `s` flag. -/
def isRegexDot (c : Char) : Bool :=
  !(isLineTerminator c)

/-- The characters of `"http://"`. -/
def httpPre : List Char := ['h', 't', 't', 'p', ':', '/', '/']

/-- The characters of `"https://"`. -/
def httpsPre : List Char := ['h', 't', 't', 'p', 's', ':', '/', '/']

/-- Continuation of `targetMatchL` after the literal scheme prefix `pre` has
been consumed: `[^\/]+` is greedy and cannot cross a `/`, so the host is
everything up to the first `/`; the optional group `(\/.*)?` must then cover
the whole rest of the string, `.` not matching line terminators. -/
def targetAfterScheme (pre r : List Char) :
    Option (List Char × Option (List Char)) :=
  let host := r.takeWhile (fun c => c ≠ '/')
  let tail := r.dropWhile (fun c => c ≠ '/')
  if host.isEmpty then none
  else
    match tail with
    | [] => some (pre ++ host, none)
    | '/' :: t =>
        if t.all isRegexDot then some (pre ++ host, some ('/' :: t)) else none
    | _ => none

/-- Matcher for the Target Resolver regex of `src/index.js` line 46,
`^(https?:\/\/[^\/]+)(\/.*)?$`, applied to the path with its leading slash
already removed.  Returns `(capture 1, capture 2)` on a match. -/
def targetMatchL : List Char → Option (List Char × Option (List Char))
  | 'h' :: 't' :: 't' :: 'p' :: rest =>
    match rest with
    | 's' :: ':' :: '/' :: '/' :: r => targetAfterScheme httpsPre r
    | ':' :: '/' :: '/' :: r => targetAfterScheme httpPre r
    | _ => none
  | _ => none

/-- The target-parsing middleware of `src/index.js` lines 43-52 (match
branch): `pathWithoutSlash = fullPath.substring(1)` then the regex match;
on success `targetOrigin = targetMatch[1]` and the rewritten url is
`targetMatch[2] || "/"` (capture 2 is never the empty string, so `||` is
exactly the undefined-default). -/
def resolveTarget (url : String) : Option (String × String) :=
  match targetMatchL (url.data.drop 1) with
  | some (o, p) => some (String.mk o, String.mk (p.getD ['/']))
  | none => none

/-- Continuation of `socketIoMatchL` after the scheme prefix: `[^\/]+` greedy
up to the first `/`; the optional second group must be the literal
`/socket.io` followed by `.*` (no line terminators).  On a match the returned
path already applies the source's default `match[2] || "/socket.io"`
(capture 2, when it participates, is never empty, so `||` is exactly the
undefined-default). -/
def socketIoAfterScheme (pre r : List Char) :
    Option (List Char × List Char) :=
  let host := r.takeWhile (fun c => c ≠ '/')
  let tail := r.dropWhile (fun c => c ≠ '/')
  if host.isEmpty then none
  else
    match tail with
    | [] => some (pre ++ host, ['/', 's', 'o', 'c', 'k', 'e', 't', '.', 'i', 'o'])
    | '/' :: 's' :: 'o' :: 'c' :: 'k' :: 'e' :: 't' :: '.' :: 'i' :: 'o' :: t =>
        if t.all isRegexDot then
          some (pre ++ host, '/' :: 's' :: 'o' :: 'c' :: 'k' :: 'e' :: 't' :: '.' :: 'i' :: 'o' :: t)
        else none
    | _ => none

/-- Matcher for the regex `^\/(https?:\/\/[^\/]+)(\/socket\.io.*)?$` used
both by the Socket.IO-parsing middleware (`src/index.js` line 106) and by the
`upgrade` handler (line 204), applied to the full request url.  Returns
`(capture 1, capture 2 defaulted to "/socket.io")`. -/
def socketIoMatchL : List Char → Option (List Char × List Char)
  | '/' :: 'h' :: 't' :: 't' :: 'p' :: rest =>
    match rest with
    | 's' :: ':' :: '/' :: '/' :: r => socketIoAfterScheme httpsPre r
    | ':' :: '/' :: '/' :: r => socketIoAfterScheme httpPre r
    | _ => none
  | _ => none

/-- Outcome of the HTTP middleware chain for one request: either the
target-parsing middleware answered with an error response itself, or the
request was handed (with its resolved target origin and rewritten url) to the
mounted proxying middleware. -/
inductive HttpOutcome where
  | errorResponse (status : Nat) (errorBody : String)
  | forwarded (targetOrigin : String) (url : String)
deriving DecidableEq

/-- The `error` field of the JSON body sent by the 400 branch of the
target-parsing middleware (`src/index.js` lines 54-57) — a fixed literal,
independent of the configured host and port. -/
def invalidUrlBody : String :=
  "Invalid URL format. Use: http://localhost:8080/http://target-host/path"

/-- The mounted HTTP middleware chain of `src/index.js`: the target-parsing
middleware (lines 43-59; on no match it answers 400 and stops the chain),
then the Socket.IO-parsing middleware (lines 105-113; it may override the
resolved target on the rewritten url), then the proxying middleware
(lines 116-192).  `dynamicProxy` (line 62) is defined in the source but never
passed to `app.use`, so it is not part of this chain. -/
def handleRequest (url : String) : HttpOutcome :=
  match resolveTarget url with
  | none => .errorResponse 400 invalidUrlBody
  | some (o, p) =>
    match socketIoMatchL p.data with
    | some (o2, p2) => .forwarded (String.mk o2) (String.mk p2)
    | none => .forwarded o p

/-- Outcome of a WebSocket upgrade request: the raw socket destroyed without
a handshake response, or a bridge created for the resolved target. -/
inductive UpgradeOutcome where
  | destroyed
  | bridged (targetOrigin : String) (targetPath : String)
deriving DecidableEq

/-- The `server.on("upgrade")` handler's target resolution (`src/index.js`
lines 200-214): the url is matched against the Socket.IO pattern; on no match
the raw socket is destroyed (`socket.destroy()`, line 206), otherwise
`targetOrigin = match[1]` and `targetPath = match[2] || "/socket.io"`. -/
def handleUpgrade (url : String) : UpgradeOutcome :=
  match socketIoMatchL url.data with
  | none => .destroyed
  | some (o, p) => .bridged (String.mk o) (String.mk p)

/-- Continuation of `namespacePatternMatch` after `(4\d)\/https?:\/\/`:
`[^,]+` is greedy and cannot cross a comma, so the namespace body runs to the
first comma; the optional `(,.*)?` must then cover the rest (`.` not matching
line terminators).  `pre` is the part of capture 2 already consumed
(`/http://` or `/https://`). -/
def namespaceAfterScheme (d : Char) (pre r : List Char) :
    Option (List Char × List Char × Option (List Char)) :=
  let body := r.takeWhile (fun c => c ≠ ',')
  let tail := r.dropWhile (fun c => c ≠ ',')
  if body.isEmpty then none
  else
    match tail with
    | [] => some (['4', d], pre ++ body, none)
    | ',' :: t =>
        if t.all isRegexDot then some (['4', d], pre ++ body, some (',' :: t))
        else none
    | _ => none

/-- Matcher for `namespacePattern = /^(4\d)(\/https?:\/\/[^,]+)(,.*)?$/`
(`src/index.js` lines 141 and 254).  Returns `(capture 1, capture 2,
capture 3)` on a match. -/
def namespacePatternMatch : List Char → Option (List Char × List Char × Option (List Char))
  | '4' :: d :: '/' :: 'h' :: 't' :: 't' :: 'p' :: rest =>
    if d.isDigit then
      match rest with
      | 's' :: ':' :: '/' :: '/' :: r => namespaceAfterScheme d ('/' :: httpsPre) r
      | ':' :: '/' :: '/' :: r => namespaceAfterScheme d ('/' :: httpPre) r
      | _ => none
    else none
  | _ => none

/-- Matcher for `connectPattern = /^(4\d)(\/)(,.*)?$/` (`src/index.js`
lines 162, 175 and 271).  Returns `(capture 1, capture 3)`; capture 2 is
always `"/"`. -/
def connectPatternMatch : List Char → Option (List Char × Option (List Char))
  | '4' :: d :: '/' :: rest =>
    if d.isDigit then
      match rest with
      | [] => some (['4', d], none)
      | ',' :: t =>
          if t.all isRegexDot then some (['4', d], some (',' :: t)) else none
      | _ => none
    else none
  | _ => none

/-- Capture referenced by a `$n` substitution for `connectPattern`'s three
groups: `$1` the type code, `$2` the literal `/`, `$3` the optional payload
(empty when it did not participate). -/
def groupRef (g1 g3 : List Char) (n : Nat) : List Char :=
  if n = 1 then g1 else if n = 2 then ['/'] else g3

/-- ECMAScript `GetSubstitution` on a replacement template, specialised to a
whole-string match with three capture groups (so `$\x60` and the
post-match `$` + apostrophe substitution are both empty): `$$` is a literal
`$`, `$&` the whole match, `$nn`/`$n` a capture reference when the group
number is between 1 and 3 (a two-digit reference larger than the group count
falls back to the one-digit reference, as V8 does), anything else is
literal. -/
def expandTpl (g1 g3 whole : List Char) : List Char → List Char
  | [] => []
  | ['$'] => ['$']
  | '$' :: c2 :: t =>
    if c2 = '$' then '$' :: expandTpl g1 g3 whole t
    else if c2 = '&' then whole ++ expandTpl g1 g3 whole t
    else if c2 = Char.ofNat 96 then expandTpl g1 g3 whole t
    else if c2 = Char.ofNat 39 then expandTpl g1 g3 whole t
    else if c2.isDigit then
      match t with
      | d2 :: t2 =>
        if d2.isDigit then
          if 1 ≤ (c2.toNat - 48) * 10 + (d2.toNat - 48)
              ∧ (c2.toNat - 48) * 10 + (d2.toNat - 48) ≤ 3 then
            groupRef g1 g3 ((c2.toNat - 48) * 10 + (d2.toNat - 48))
              ++ expandTpl g1 g3 whole t2
          else if 1 ≤ c2.toNat - 48 ∧ c2.toNat - 48 ≤ 3 then
            groupRef g1 g3 (c2.toNat - 48) ++ expandTpl g1 g3 whole (d2 :: t2)
          else '$' :: c2 :: expandTpl g1 g3 whole (d2 :: t2)
        else
          if 1 ≤ c2.toNat - 48 ∧ c2.toNat - 48 ≤ 3 then
            groupRef g1 g3 (c2.toNat - 48) ++ expandTpl g1 g3 whole (d2 :: t2)
          else '$' :: c2 :: expandTpl g1 g3 whole (d2 :: t2)
      | [] =>
        if 1 ≤ c2.toNat - 48 ∧ c2.toNat - 48 ≤ 3 then groupRef g1 g3 (c2.toNat - 48)
        else ['$', c2]
    else '$' :: c2 :: expandTpl g1 g3 whole t
  | c :: rest => c :: expandTpl g1 g3 whole rest

/-- Client→server packet rewrite of `src/index.js` lines 252-261: on a
`namespacePattern` match, `message.replace(namespacePattern, "$1/$3")` — the
fixed template expands to capture 1, `/`, capture 3 (empty when absent);
otherwise the message is unchanged. -/
def rewriteClientToServer (m : String) : String :=
  match namespacePatternMatch m.data with
  | some (g1, _, g3) => String.mk (g1 ++ '/' :: g3.getD [])
  | none => m

/-- Server→client packet rewrite of `src/index.js` lines 269-278: on a
`connectPattern` match, `message.replace(connectPattern,
`$1/${targetOrigin}$3`)` — the template literal first splices the recorded
`targetOrigin` into the replacement string, and `replace` then performs
`$`-substitution on the whole spliced template; otherwise the message is
unchanged. -/
def rewriteServerToClient (targetOrigin : String) (m : String) : String :=
  match connectPatternMatch m.data with
  | some (g1, g3) =>
      String.mk (expandTpl g1 (g3.getD []) m.data
        ('$' :: '1' :: '/' :: (targetOrigin.data ++ ['$', '3'])))
  | none => m

/-- Process-wide configuration fixed at startup (`src/index.js` lines 33-38). -/
structure Config where
  allowedOrigin : String
  fixCookies : Bool
  cookieDomain : String
deriving DecidableEq

/-- The response headers the rewriters touch.  `acao`, `acac`, `acam` are
`access-control-allow-origin`, `-credentials`, `-methods`; `setCookie` is the
`set-cookie` header, an ordered sequence of cookie strings when present.
Headers outside these four are neither read nor written by either rewriter and are
omitted from the model. -/
structure RespHeaders where
  acao : Option String
  acac : Option String
  acam : Option String
  setCookie : Option (List String)
deriving DecidableEq

/-- Leftmost-occurrence string replacement: the semantics of JavaScript
`s.replace(pat, repl)` when `pat` is a plain string and `repl` contains no
`$` (both replacement strings in the source, `"Domain=localhost"` and `""`,
contain none). -/
def replaceFirst (pat repl : List Char) : List Char → List Char
  | [] => if pat = [] then repl else []
  | c :: t =>
      if pat.isPrefixOf (c :: t) then repl ++ (c :: t).drop pat.length
      else c :: replaceFirst pat repl t

/-- Whether `pat` occurs as a contiguous substring. -/
def containsSub (pat : List Char) : List Char → Bool
  | [] => pat.isEmpty
  | c :: t => pat.isPrefixOf (c :: t) || containsSub pat t

/-- The per-cookie rewrite of `src/index.js` lines 87-89:
`cookie.replace("Domain=" + cookieDomain, "Domain=localhost")
.replace("Secure;", "")` — each `replace` call substitutes only the first
occurrence of its literal pattern. -/
def fixCookie (cookieDomain : String) (cookie : String) : String :=
  String.mk (replaceFirst "Secure;".data []
    (replaceFirst ("Domain=".data ++ cookieDomain.data) "Domain=localhost".data
      cookie.data))

/-- The `proxyRes` handler of the unmounted `dynamicProxy` middleware
(`src/index.js` lines 76-92): forces the three CORS headers and, when
`fixCookies` is set and a `set-cookie` header is present, maps `fixCookie`
over the cookie sequence.  (A present-but-empty cookie array is truthy in
JavaScript and maps to itself, so matching only on presence is faithful.) -/
def dynamicProxyResHeaders (cfg : Config) (h : RespHeaders) : RespHeaders :=
  let h1 : RespHeaders :=
    { h with
      acao := some cfg.allowedOrigin
      acac := some "true"
      acam := some "GET, POST, PUT, PATCH, DELETE, OPTIONS" }
  if cfg.fixCookies then
    match h1.setCookie with
    | some cs => { h1 with setCookie := some (cs.map (fixCookie cfg.cookieDomain)) }
    | none => h1
  else h1

/-- The `proxyRes` handler of the proxy middleware that is actually mounted
(`src/index.js` lines 150-153): it forces only `access-control-allow-origin`
and `access-control-allow-credentials`; it does not touch
`access-control-allow-methods` or `set-cookie`. -/
def proxyResHeaders (allowedOrigin : String) (h : RespHeaders) : RespHeaders :=
  { h with acao := some allowedOrigin, acac := some "true" }

/-- Headers of an upstream response as they reach the client: `dynamicProxy`
(and with it `dynamicProxyResHeaders`) is never passed to `app.use`, so the
only header rewrite applied on the response path is `proxyResHeaders` of the
proxy created at `src/index.js` lines 119-189. -/
def responseHeadersToClient (allowedOrigin : String) (h : RespHeaders) : RespHeaders :=
  proxyResHeaders allowedOrigin h

/-- The headers of an inbound upgrade request that the `upgrade` handler
reads (`src/index.js` lines 228-230), plus `cookie`, which it does not read
but claim C4 speaks about. -/
structure UpgradeReqHeaders where
  authorization : Option String
  source : Option String
  userAgent : Option String
  cookie : Option String
deriving DecidableEq

/-- One entry of the `forwardHeaders` object built at `src/index.js`
lines 227-230: `if (req.headers.x) forwardHeaders.x = req.headers.x` — the
header is added when present and truthy (a present empty string is falsy in
JavaScript and is not added). -/
def optHeader (key : String) : Option String → List (String × String)
  | some v => if v = "" then [] else [(key, v)]
  | none => []

/-- The `forwardHeaders` object built at `src/index.js` lines 227-230: only
`authorization`, `source` and `user-agent` are ever added; nothing else — in
particular no cookie — is forwarded. -/
def forwardHeaders (h : UpgradeReqHeaders) : List (String × String) :=
  optHeader "authorization" h.authorization ++ optHeader "source" h.source
    ++ optHeader "user-agent" h.userAgent

/-- Options of the outbound `new WebSocket(targetWsUrl, ...)` call
(`src/index.js` lines 234-237). -/
structure TargetWsOptions where
  headers : List (String × String)
  rejectUnauthorized : Bool
deriving DecidableEq

/-- The outbound WebSocket connection options: the restricted forwarded
headers and `rejectUnauthorized: false` (TLS certificate validation
disabled). -/
def mkTargetWsOptions (h : UpgradeReqHeaders) : TargetWsOptions :=
  { headers := forwardHeaders h, rejectUnauthorized := false }

/-- An error reported by the proxying collaborator (connection refused, TLS
failure, reset ...), carrying its `message`. -/
structure ProxyError where
  message : String
deriving DecidableEq

/-- What an `error` handler does towards the client. -/
inductive ErrorHandlerAction where
  | respond (status : Nat) (errorBody : String)
  | noResponse
deriving DecidableEq

/-- The `error` handler of the unmounted `dynamicProxy` (`src/index.js`
lines 93-97): when headers are not already sent, answer
`500` with JSON error `"Proxy error: " + err.message`; else nothing. -/
def dynamicProxyOnError (err : ProxyError) (headersSent : Bool) : ErrorHandlerAction :=
  if headersSent then .noResponse
  else .respond 500 ("Proxy error: " ++ err.message)

/-- The `error` handler of the mounted proxy (`src/index.js` lines 185-187):
it only logs (`console.error`) and writes nothing to the client. -/
def mountedProxyOnError (_err : ProxyError) : ErrorHandlerAction :=
  .noResponse

/-- A WebSocket message frame as delivered to a `ws` message handler: the
frame kind (binary or text) and its content.  For a binary frame `content`
stands for the UTF-8 decoding that `data.toString()` performs on its
bytes. -/
structure WsFrame where
  isBinary : Bool
  content : String
deriving DecidableEq

/-- The frame the bridge sends to the target for a client frame
(`src/index.js` lines 252-265): `data.toString()`, the client→server
rewrite, then `targetWs.send(message)` with a string argument — which always
produces a text frame, whatever the inbound frame kind was. -/
def forwardClientFrame (f : WsFrame) : WsFrame :=
  { isBinary := false, content := rewriteClientToServer f.content }

/-- The frame the bridge sends to the client for a target frame
(`src/index.js` lines 269-282): `data.toString()`, the server→client rewrite
with the recorded `targetOrigin`, then `clientWs.send(message)` — again
always a text frame. -/
def forwardTargetFrame (targetOrigin : String) (f : WsFrame) : WsFrame :=
  { isBinary := false, content := rewriteServerToClient targetOrigin f.content }

/-- Ready state of one `ws` socket of an open bridge (the `CONNECTING` phase
of the outbound socket precedes the bridged configuration the claims reason
about and is omitted). -/
inductive ReadyState where
  | OPEN
  | CLOSING
  | CLOSED
deriving DecidableEq

/-- The state of one Socket Pair: `client` is `clientWs`'s ready state,
`target` is `targetWs`'s. -/
structure PairState where
  client : ReadyState
  target : ReadyState
deriving DecidableEq

/-- Both sockets of a freshly bridged pair are open. -/
def initPair : PairState := { client := .OPEN, target := .OPEN }

/-- Semantics of `ws`'s `WebSocket.close()`: on an `OPEN` socket it starts
the closing handshake (and the `Bool` records that a close was actually
initiated); on a socket already `CLOSING` or `CLOSED` it does nothing. -/
def closeSock : ReadyState → ReadyState × Bool
  | .OPEN => (.CLOSING, true)
  | s => (s, false)

/-- The events a live pair can receive: `close`/`error` events and message
events on either socket (`src/index.js` lines 252-303). -/
inductive BridgeEv where
  | clientClose
  | clientError
  | targetClose
  | targetError
  | clientMessage (s : String)
  | targetMessage (s : String)
deriving DecidableEq

/-- Observable effects of one handler run: a frame sent to one side, or a
close actually initiated (an effective `close()` call) on one side. -/
inductive BridgeOut where
  | sendToTarget (s : String)
  | sendToClient (s : String)
  | closeTarget
  | closeClient
deriving DecidableEq

/-- One handler dispatch of the bridge (`src/index.js` lines 252-303).
A `close`/`error` event on a socket marks it `CLOSED` and calls `close()` on
the peer (lines 285-303); a `close` event on an already-`CLOSED` socket
cannot occur and is a no-op here.  A message handler forwards the rewritten
message only when the destination socket's `readyState` is `OPEN`
(lines 263-264 and 280-281); message events no longer occur on a `CLOSED`
socket. -/
def stepBridge (targetOrigin : String) (st : PairState) : BridgeEv → PairState × List BridgeOut
  | .clientClose =>
    if st.client = .CLOSED then (st, [])
    else
      let (t, started) := closeSock st.target
      ({ client := .CLOSED, target := t }, if started then [.closeTarget] else [])
  | .clientError =>
    if st.client = .CLOSED then (st, [])
    else
      let (t, started) := closeSock st.target
      ({ client := .CLOSED, target := t }, if started then [.closeTarget] else [])
  | .targetClose =>
    if st.target = .CLOSED then (st, [])
    else
      let (c, started) := closeSock st.client
      ({ client := c, target := .CLOSED }, if started then [.closeClient] else [])
  | .targetError =>
    if st.target = .CLOSED then (st, [])
    else
      let (c, started) := closeSock st.client
      ({ client := c, target := .CLOSED }, if started then [.closeClient] else [])
  | .clientMessage s =>
    if st.client = .CLOSED then (st, [])
    else if st.target = .OPEN then (st, [.sendToTarget (rewriteClientToServer s)])
    else (st, [])
  | .targetMessage s =>
    if st.target = .CLOSED then (st, [])
    else if st.client = .OPEN then (st, [.sendToClient (rewriteServerToClient targetOrigin s)])
    else (st, [])

/-- Run of a pair over a sequence of events, accumulating the emitted
effects. -/
def runBridge (targetOrigin : String) (st : PairState) : List BridgeEv → PairState × List BridgeOut
  | [] => (st, [])
  | ev :: evs =>
    let r1 := stepBridge targetOrigin st ev
    let r2 := runBridge targetOrigin r1.1 evs
    (r2.1, r1.2 ++ r2.2)

/-- Whether an effect is a frame forwarded to either side. -/
def isSend : BridgeOut → Bool
  | .sendToTarget _ => true
  | .sendToClient _ => true
  | _ => false

theorem takeWhile_append_of_all {α : Type} {p : α → Bool} {l1 l2 : List α}
    (h : ∀ c ∈ l1, p c = true) :
    (l1 ++ l2).takeWhile p = l1 ++ l2.takeWhile p := by
  induction l1 with
  | nil => simp
  | cons c t ih =>
    have hc : p c = true := h c (List.mem_cons_self c t)
    simp [List.takeWhile, hc, ih fun x hx => h x (List.mem_cons_of_mem c hx)]

theorem dropWhile_append_of_all {α : Type} {p : α → Bool} {l1 l2 : List α}
    (h : ∀ c ∈ l1, p c = true) :
    (l1 ++ l2).dropWhile p = l2.dropWhile p := by
  induction l1 with
  | nil => simp
  | cons c t ih =>
    have hc : p c = true := h c (List.mem_cons_self c t)
    simp [List.dropWhile, hc, ih fun x hx => h x (List.mem_cons_of_mem c hx)]

/-- C3: Target Resolver round trip.  For every valid input
`<scheme>://<host>[:port][/path]` — scheme `http` or `https`, non-empty
host[:port] containing no `/`, and a path that is absent or starts with `/`
(and, as for any path that can reach the resolver, free of line
terminators) — resolving `"/" + input` succeeds with origin
`<scheme>://<host>` and path the given path, defaulting to `"/"` when the
path is absent; when the path is present the resolved origin and path
concatenate back to the input. -/
theorem c3_target_resolver_round_trip
    (schemeS host path : List Char)
    (hs : schemeS = httpPre ∨ schemeS = httpsPre)
    (hh : host ≠ [])
    (hh2 : '/' ∉ host)
    (hp : path = [] ∨ ∃ t, path = '/' :: t ∧ t.all isRegexDot = true) :
    resolveTarget (String.mk ('/' :: (schemeS ++ host ++ path)))
      = some (String.mk (schemeS ++ host),
              if path = [] then "/" else String.mk path)
    ∧ (path ≠ [] →
        String.mk (schemeS ++ host) ++ String.mk path
          = String.mk (schemeS ++ host ++ path)) := by
  constructor
  · have hall : ∀ c ∈ host, (fun c => decide (c ≠ '/')) c = true := by
      intro c hc
      simp only [decide_eq_true_iff]
      exact fun h => hh2 (h ▸ hc)
    have hne : host.isEmpty = false := by
      cases host with
      | nil => exact absurd rfl hh
      | cons a b => rfl
    rcases hs with hs | hs <;> subst hs
    · rcases hp with hp | ⟨t, hp, ht⟩ <;> subst hp
      · simp only [resolveTarget, httpPre, List.cons_append, List.nil_append,
          List.append_nil, List.drop_succ_cons, List.drop_zero,
          targetMatchL, targetAfterScheme]
        rw [List.takeWhile_eq_self_iff.mpr hall, List.dropWhile_eq_nil_iff.mpr hall]
        simp [hne]
      · simp only [resolveTarget, httpPre, List.cons_append, List.nil_append,
          List.drop_succ_cons, List.drop_zero,
          targetMatchL, targetAfterScheme, List.append_assoc]
        rw [takeWhile_append_of_all hall, dropWhile_append_of_all hall]
        simp [hne, List.takeWhile, ht]
    · rcases hp with hp | ⟨t, hp, ht⟩ <;> subst hp
      · simp only [resolveTarget, httpsPre, List.cons_append, List.nil_append,
          List.append_nil, List.drop_succ_cons, List.drop_zero,
          targetMatchL, targetAfterScheme]
        rw [List.takeWhile_eq_self_iff.mpr hall, List.dropWhile_eq_nil_iff.mpr hall]
        simp [hne]
      · simp only [resolveTarget, httpsPre, List.cons_append, List.nil_append,
          List.drop_succ_cons, List.drop_zero,
          targetMatchL, targetAfterScheme, List.append_assoc]
        rw [takeWhile_append_of_all hall, dropWhile_append_of_all hall]
        simp [hne, List.takeWhile, ht]
  · intro _
    rfl

/-- Witness for C3 at the concrete input `https://api.example.com/data`. -/
theorem c3_target_resolver_round_trip_witness :
    resolveTarget "/https://api.example.com/data"
      = some ("https://api.example.com", "/data") := by
  have h := (c3_target_resolver_round_trip httpsPre "api.example.com".data
    "/data".data (Or.inr rfl) (by decide) (by decide)
    (Or.inr ⟨"data".data, rfl, by decide⟩)).1
  exact h

/-- C8: a request whose path the Target Resolver rejects is answered by the
target-parsing middleware itself with status 400 (a client error) and the
documented JSON error body — the fixed string of `src/index.js` line 56 —
and is never handed to the proxying collaborator. -/
theorem c8_invalid_url_request (url : String)
    (h : resolveTarget url = none) :
    handleRequest url = .errorResponse 400 invalidUrlBody
    ∧ (400 ≤ 400 ∧ 400 < 500)
    ∧ (∀ o p, handleRequest url ≠ .forwarded o p) := by
  refine ⟨by simp [handleRequest, h], by omega, ?_⟩
  intro o p hc
  rw [handleRequest, h] at hc
  exact HttpOutcome.noConfusion hc

/-- Witness for C8 at the concrete request path `/not-a-url`. -/
theorem c8_invalid_url_request_witness :
    handleRequest "/not-a-url"
      = .errorResponse 400
          "Invalid URL format. Use: http://localhost:8080/http://target-host/path" :=
  (c8_invalid_url_request "/not-a-url" (by decide)).1

/-- C9 counterexample: the path `/http://h/other` has the embedded-target
shape (the HTTP Target Resolver accepts it, origin `http://h`, path
`/other`), yet the upgrade handler destroys the raw connection, because its
regex only admits paths whose second group starts with `/socket.io`; and a
matching path with no path component resolves to `/socket.io`, not `/`. -/
theorem c9_upgrade_path_counterexample :
    resolveTarget "/http://h/other" = some ("http://h", "/other")
    ∧ handleUpgrade "/http://h/other" = .destroyed
    ∧ handleUpgrade "/http://h" = .bridged "http://h" "/socket.io"
    ∧ UpgradeOutcome.bridged "http://h" "/socket.io"
        ≠ .bridged "http://h" "/" :=
  ⟨rfl, rfl, rfl, by decide⟩

set_option maxHeartbeats 1000000 in
/-- C9 amended: the upgrade handler accepts exactly the paths
`/<scheme>://<host>[:port]` optionally followed by a path component that
starts with the literal `/socket.io` (free of line terminators); it records
origin = capture 1 and path = capture 2 defaulted to `/socket.io` when
absent, and every path its regex rejects — including embedded-target paths
whose path component does not start with `/socket.io` — causes the raw
connection to be destroyed without a handshake response. -/
theorem c9_upgrade_resolution (schemeS host sub : List Char) (url : String)
    (hs : schemeS = httpPre ∨ schemeS = httpsPre)
    (hh : host ≠ [])
    (hh2 : '/' ∉ host)
    (hsub : sub.all isRegexDot = true)
    (hu : socketIoMatchL url.data = none) :
    handleUpgrade (String.mk ('/' :: (schemeS ++ host)))
      = .bridged (String.mk (schemeS ++ host)) "/socket.io"
    ∧ handleUpgrade (String.mk ('/' :: (schemeS ++ host
          ++ ('/' :: 's' :: 'o' :: 'c' :: 'k' :: 'e' :: 't' :: '.' :: 'i' :: 'o' :: sub))))
      = .bridged (String.mk (schemeS ++ host))
          (String.mk ('/' :: 's' :: 'o' :: 'c' :: 'k' :: 'e' :: 't' :: '.' :: 'i' :: 'o' :: sub))
    ∧ handleUpgrade url = .destroyed := by
  have hall : ∀ c ∈ host, (fun c => decide (c ≠ '/')) c = true := by
    intro c hc
    simp only [decide_eq_true_iff]
    exact fun h => hh2 (h ▸ hc)
  have hne : host.isEmpty = false := by
    cases host with
    | nil => exact absurd rfl hh
    | cons a b => rfl
  refine ⟨?_, ?_, by simp [handleUpgrade, hu]⟩
  · rcases hs with hs | hs <;> subst hs
    · simp only [handleUpgrade, httpPre, List.cons_append, List.nil_append,
        socketIoMatchL, socketIoAfterScheme]
      rw [List.takeWhile_eq_self_iff.mpr hall, List.dropWhile_eq_nil_iff.mpr hall]
      simp [hne]
    · simp only [handleUpgrade, httpsPre, List.cons_append, List.nil_append,
        socketIoMatchL, socketIoAfterScheme]
      rw [List.takeWhile_eq_self_iff.mpr hall, List.dropWhile_eq_nil_iff.mpr hall]
      simp [hne]
  · rcases hs with hs | hs <;> subst hs
    · simp only [handleUpgrade, httpPre, List.cons_append, List.nil_append,
        socketIoMatchL, socketIoAfterScheme, List.append_assoc]
      rw [takeWhile_append_of_all hall, dropWhile_append_of_all hall]
      simp [hne, List.takeWhile, hsub]
    · simp only [handleUpgrade, httpsPre, List.cons_append, List.nil_append,
        socketIoMatchL, socketIoAfterScheme, List.append_assoc]
      rw [takeWhile_append_of_all hall, dropWhile_append_of_all hall]
      simp [hne, List.takeWhile, hsub]

/-- Witness for C9 at concrete upgrade paths. -/
theorem c9_upgrade_resolution_witness :
    handleUpgrade "/http://h"
      = .bridged "http://h" "/socket.io"
    ∧ handleUpgrade "/ws-chat" = .destroyed := by
  have h := c9_upgrade_resolution httpPre ['h'] [] "/ws-chat"
    (Or.inl rfl) (by decide) (by decide) (by decide) (by decide)
  exact ⟨h.1, h.2.2⟩

theorem expandTpl_cons_ne (g1 g3 whole : List Char) {c : Char} (X : List Char)
    (h : c ≠ '$') :
    expandTpl g1 g3 whole (c :: X) = c :: expandTpl g1 g3 whole X := by
  cases X with
  | nil =>
    rw [expandTpl.eq_def]
    simp [h]
  | cons a b =>
    rw [expandTpl.eq_def]
    simp [h]

theorem expandTpl_append_of_no_dollar (g1 g3 whole : List Char)
    {l : List Char} (rest : List Char) (h : '$' ∉ l) :
    expandTpl g1 g3 whole (l ++ rest) = l ++ expandTpl g1 g3 whole rest := by
  induction l with
  | nil => simp
  | cons c t ih =>
    have hc : c ≠ '$' := fun hc => h (hc ▸ List.mem_cons_self c t)
    rw [List.cons_append, expandTpl_cons_ne g1 g3 whole (t ++ rest) hc,
      ih fun hm => h (List.mem_cons_of_mem c hm)]
    rfl

theorem expandTpl_dollar_one (g1 g3 whole R : List Char) :
    expandTpl g1 g3 whole ('$' :: '1' :: '/' :: R)
      = g1 ++ '/' :: expandTpl g1 g3 whole R := by
  rw [expandTpl.eq_def]
  simp [groupRef, expandTpl_cons_ne g1 g3 whole R (show ('/' : Char) ≠ '$' by decide)]

theorem expandTpl_dollar_three (g1 g3 whole : List Char) :
    expandTpl g1 g3 whole ['$', '3'] = g3 := by
  rw [expandTpl.eq_def]
  simp [groupRef]

/-- C1 counterexample: on a pair whose recorded embedded origin is
`http://x$1` (a `$` is legal both in a URL path and in the origin capture
`https?:\/\/[^\/]+`), the server→client rewrite of the frame `40/,p` yields
`40/http://x40,p` — the `$1` inside the origin is interpreted as a capture
reference by `String.prototype.replace` — and not the claimed `$1/O$3` form
`40/http://x$1,p`. -/
theorem c1_packet_rewriter_counterexample :
    rewriteServerToClient "http://x$1" "40/,p" = "40/http://x40,p"
    ∧ "40/http://x40,p" ≠ "40/http://x$1,p" :=
  ⟨by decide, by decide⟩

theorem rewriteServerToClient_eval (d : Char) (origin payload : List Char)
    (hd : d.isDigit = true)
    (hnd : '$' ∉ origin)
    (hp : payload = [] ∨ ∃ t, payload = ',' :: t ∧ t.all isRegexDot = true) :
    rewriteServerToClient (String.mk origin) (String.mk ('4' :: d :: '/' :: payload))
      = String.mk ('4' :: d :: '/' :: (origin ++ payload)) := by
  rcases hp with hp | ⟨t, hp, ht⟩ <;> subst hp
  · simp only [rewriteServerToClient, connectPatternMatch, hd, if_true,
      Option.getD_none]
    rw [expandTpl_dollar_one, expandTpl_append_of_no_dollar _ _ _ _ hnd,
      expandTpl_dollar_three]
    simp
  · simp only [rewriteServerToClient, connectPatternMatch, hd, if_true, ht,
      Option.getD_some]
    rw [expandTpl_dollar_one, expandTpl_append_of_no_dollar _ _ _ _ hnd,
      expandTpl_dollar_three]
    simp

set_option maxHeartbeats 1000000 in
theorem rewriteClientToServer_eval (d : Char) (schemeS body payload : List Char)
    (hd : d.isDigit = true)
    (hs : schemeS = httpPre ∨ schemeS = httpsPre)
    (hb : body ≠ [])
    (hbc : ',' ∉ body)
    (hp : payload = [] ∨ ∃ t, payload = ',' :: t ∧ t.all isRegexDot = true) :
    rewriteClientToServer
        (String.mk ('4' :: d :: '/' :: (schemeS ++ body ++ payload)))
      = String.mk ('4' :: d :: '/' :: payload) := by
  have hallc : ∀ c ∈ body, (fun c => decide (c ≠ ',')) c = true := by
    intro c hc
    simp only [decide_eq_true_iff]
    exact fun h => hbc (h ▸ hc)
  have hne : body.isEmpty = false := by
    cases body with
    | nil => exact absurd rfl hb
    | cons a b => rfl
  rcases hs with hs | hs <;> subst hs <;>
    rcases hp with hp | ⟨t, hp, ht⟩ <;> subst hp
  · simp only [rewriteClientToServer, httpPre, List.cons_append,
      List.nil_append, List.append_nil, namespacePatternMatch,
      namespaceAfterScheme, hd, if_true]
    rw [List.takeWhile_eq_self_iff.mpr hallc, List.dropWhile_eq_nil_iff.mpr hallc]
    simp [hne]
  · simp only [rewriteClientToServer, httpPre, List.cons_append,
      List.nil_append, List.append_assoc, namespacePatternMatch,
      namespaceAfterScheme, hd, if_true]
    rw [takeWhile_append_of_all hallc, dropWhile_append_of_all hallc]
    simp [hne, List.takeWhile, List.dropWhile, ht]
  · simp only [rewriteClientToServer, httpsPre, List.cons_append,
      List.nil_append, List.append_nil, namespacePatternMatch,
      namespaceAfterScheme, hd, if_true]
    rw [List.takeWhile_eq_self_iff.mpr hallc, List.dropWhile_eq_nil_iff.mpr hallc]
    simp [hne]
  · simp only [rewriteClientToServer, httpsPre, List.cons_append,
      List.nil_append, List.append_assoc, namespacePatternMatch,
      namespaceAfterScheme, hd, if_true]
    rw [takeWhile_append_of_all hallc, dropWhile_append_of_all hallc]
    simp [hne, List.takeWhile, List.dropWhile, ht]

/-- C1 amended, in three parts matching the claim's three assertions.
(i) For every client→server frame matching
`^(4\d)(/https?://[^,]+)(,.*)?$` — i.e. every frame
`4<d>/<scheme><body><payload>` with `<d>` a digit, `<scheme>` `http://` or
`https://`, `<body>` non-empty and comma-free (capture 2's `[^,]+` cannot
cross a comma) and `<payload>` absent or `,` followed by
line-terminator-free text — the rewrite yields `$1/$3`, unconditionally.
(ii) For every server→client frame matching `^(4\d)(/)(,.*)?$` on a pair
whose recorded embedded origin contains no `$` character (commas and any
other characters allowed), the rewrite yields `$1/O$3`.
(iii) Hence for every origin that contains no `$` — and no comma, since the
namespace field of a connect packet can only be exactly the origin when the
origin is comma-free — stripping the namespace client→server and applying
the server→client rewrite with the same origin reproduces the original
frame. -/
theorem c1_packet_rewriter_round_trip
    (d : Char) (schemeS body payload : List Char) (origin : String) :
    (d.isDigit = true →
      (schemeS = httpPre ∨ schemeS = httpsPre) →
      body ≠ [] → ',' ∉ body →
      (payload = [] ∨ ∃ t, payload = ',' :: t ∧ t.all isRegexDot = true) →
      rewriteClientToServer
          (String.mk ('4' :: d :: '/' :: (schemeS ++ body ++ payload)))
        = String.mk ('4' :: d :: '/' :: payload))
    ∧ (d.isDigit = true → '$' ∉ origin.data →
      (payload = [] ∨ ∃ t, payload = ',' :: t ∧ t.all isRegexDot = true) →
      rewriteServerToClient origin (String.mk ('4' :: d :: '/' :: payload))
        = String.mk ('4' :: d :: '/' :: (origin.data ++ payload)))
    ∧ (d.isDigit = true →
      (schemeS = httpPre ∨ schemeS = httpsPre) →
      body ≠ [] → ',' ∉ body → '$' ∉ body →
      (payload = [] ∨ ∃ t, payload = ',' :: t ∧ t.all isRegexDot = true) →
      rewriteServerToClient (String.mk (schemeS ++ body))
          (rewriteClientToServer
            (String.mk ('4' :: d :: '/' :: (schemeS ++ body ++ payload))))
        = String.mk ('4' :: d :: '/' :: (schemeS ++ body ++ payload))) := by
  refine ⟨?_, ?_, ?_⟩
  · intro hd hs hb hbc hp
    exact rewriteClientToServer_eval d schemeS body payload hd hs hb hbc hp
  · intro hd hnd hp
    exact rewriteServerToClient_eval d origin.data payload hd hnd hp
  · intro hd hs hb hbc hbd hp
    have hnd : '$' ∉ schemeS ++ body := by
      intro hm
      rcases List.mem_append.mp hm with hm | hm
      · rcases hs with hs | hs <;> subst hs <;> revert hm <;> decide
      · exact hbd hm
    rw [rewriteClientToServer_eval d schemeS body payload hd hs hb hbc hp]
    exact rewriteServerToClient_eval d (schemeS ++ body) payload hd hnd hp

/-- Witness for C1 at the spec's round-trip example frames. -/
theorem c1_packet_rewriter_round_trip_witness :
    rewriteClientToServer "40/https://api.example.com,\x7b\"token\":1\x7d"
      = "40/,\x7b\"token\":1\x7d"
    ∧ rewriteServerToClient "https://api.example.com" "40/,\x7b\"ok\":true\x7d"
      = "40/https://api.example.com,\x7b\"ok\":true\x7d" := by
  have ha := (c1_packet_rewriter_round_trip '0' httpsPre "api.example.com".data
    ",\x7b\"token\":1\x7d".data "https://api.example.com").1 rfl (Or.inr rfl)
    (by decide) (by decide)
    (Or.inr ⟨"\x7b\"token\":1\x7d".data, rfl, by decide⟩)
  have hb := (c1_packet_rewriter_round_trip '0' httpsPre "api.example.com".data
    ",\x7b\"ok\":true\x7d".data "https://api.example.com").2.1 rfl (by decide)
    (Or.inr ⟨"\x7b\"ok\":true\x7d".data, rfl, by decide⟩)
  exact ⟨ha, hb⟩

/-- C2 counterexample: the frame `42/,["event"]`, which the claim lists as
passing through byte-identical in both directions, matches `connectPattern`
in the server→client direction and is rewritten (the recorded origin is
spliced into its namespace field); and a binary frame whose bytes decode to
`2` is re-sent as a text frame — the bridge calls `toString()` on every
frame and `send`s the resulting string. -/
theorem c2_passthrough_counterexample :
    forwardTargetFrame "http://h" ⟨false, "42/,[\"event\"]"⟩
      = ⟨false, "42/http://h,[\"event\"]"⟩
    ∧ (⟨false, "42/http://h,[\"event\"]"⟩ : WsFrame) ≠ ⟨false, "42/,[\"event\"]"⟩
    ∧ forwardClientFrame ⟨true, "2"⟩ = ⟨false, "2"⟩
    ∧ (⟨false, "2"⟩ : WsFrame) ≠ ⟨true, "2"⟩ :=
  ⟨by decide, by decide, by decide, by decide⟩

/-- C2 amended: a text frame that matches neither direction-specific
connect-packet regex is forwarded with byte-identical content in that
direction (so `2` passes through both ways, while `42/,["event"]` passes
only client→server); every forwarded frame, including one received as
binary, is re-sent as a text frame of its decoded content. -/
theorem c2_passthrough (origin s : String) :
    (namespacePatternMatch s.data = none →
      forwardClientFrame ⟨false, s⟩ = ⟨false, s⟩)
    ∧ (connectPatternMatch s.data = none →
      forwardTargetFrame origin ⟨false, s⟩ = ⟨false, s⟩)
    ∧ (∀ b : Bool, (forwardClientFrame ⟨b, s⟩).isBinary = false
        ∧ (forwardTargetFrame origin ⟨b, s⟩).isBinary = false) := by
  refine ⟨fun h => ?_, fun h => ?_, fun b => ⟨rfl, rfl⟩⟩
  · simp [forwardClientFrame, rewriteClientToServer, h]
  · simp [forwardTargetFrame, rewriteServerToClient, h]

/-- Witness for C2 at the frame `2` in both directions. -/
theorem c2_passthrough_witness :
    namespacePatternMatch "2".data = none
    ∧ connectPatternMatch "2".data = none
    ∧ forwardClientFrame ⟨false, "2"⟩ = ⟨false, "2"⟩
    ∧ forwardTargetFrame "http://h" ⟨false, "2"⟩ = ⟨false, "2"⟩ :=
  ⟨by decide, by decide, (c2_passthrough "http://h" "2").1 (by decide),
    (c2_passthrough "http://h" "2").2.1 (by decide)⟩

theorem mem_optHeader {k v key : String} {w : Option String} :
    (k, v) ∈ optHeader key w ↔ (k = key ∧ w = some v ∧ v ≠ "") := by
  rcases w with _ | w
  · simp [optHeader]
  · by_cases hw : w = "" <;> simp [optHeader, hw] <;> aesop

/-- C4 counterexample: for an upgrade request carrying both an
`authorization` and a `cookie` header, the outbound connection's headers are
exactly `authorization` — a client-supplied header other than `Cookie` is
forwarded, and the `Cookie` header is not forwarded. -/
theorem c4_forward_headers_counterexample :
    (mkTargetWsOptions ⟨some "Bearer t", none, none, some "sid=1"⟩).headers
      = [("authorization", "Bearer t")]
    ∧ ("cookie", "sid=1")
        ∉ (mkTargetWsOptions ⟨some "Bearer t", none, none, some "sid=1"⟩).headers
    ∧ ("authorization" : String) ≠ "cookie" := by
  decide

/-- C4 amended: the outbound upstream connection forwards exactly the
`authorization`, `source` and `user-agent` headers of the inbound upgrade
request — each if present and non-empty — and never any other header (in
particular not `Cookie`); TLS certificate validation is disabled on the
outbound leg (`rejectUnauthorized: false`). -/
theorem c4_forward_headers (h : UpgradeReqHeaders) (k v : String) :
    ((k, v) ∈ (mkTargetWsOptions h).headers ↔
      ((k = "authorization" ∧ h.authorization = some v ∧ v ≠ "")
        ∨ (k = "source" ∧ h.source = some v ∧ v ≠ "")
        ∨ (k = "user-agent" ∧ h.userAgent = some v ∧ v ≠ "")))
    ∧ (mkTargetWsOptions h).rejectUnauthorized = false := by
  refine ⟨?_, rfl⟩
  simp [mkTargetWsOptions, forwardHeaders, List.mem_append, mem_optHeader,
    or_assoc]

/-- Witness for C4 at a concrete request with only a cookie header: nothing
is forwarded, and certificate validation is off. -/
theorem c4_forward_headers_witness :
    ¬ (("cookie", "sid=1")
        ∈ (mkTargetWsOptions ⟨none, none, none, some "sid=1"⟩).headers)
    ∧ (mkTargetWsOptions ⟨none, none, none, some "sid=1"⟩).rejectUnauthorized
        = false := by
  have h := c4_forward_headers ⟨none, none, none, some "sid=1"⟩ "cookie" "sid=1"
  refine ⟨fun hm => ?_, h.2⟩
  rcases h.1.mp hm with ⟨hk, hv, _⟩ | ⟨hk, hv, _⟩ | ⟨hk, hv, _⟩ <;> cases hv

theorem replaceFirst_of_not_containsSub {pat repl s : List Char}
    (h : containsSub pat s = false) :
    replaceFirst pat repl s = s := by
  induction s with
  | nil =>
    have hp : pat ≠ [] := by
      intro hp
      subst hp
      simp [containsSub] at h
    simp [replaceFirst, hp]
  | cons c t ih =>
    simp only [containsSub, Bool.or_eq_false_iff] at h
    simp [replaceFirst, h.1, ih h.2]

theorem replaceFirst_length (pat repl s : List Char)
    (h : containsSub pat s = true) :
    (replaceFirst pat repl s).length + pat.length = s.length + repl.length := by
  induction s with
  | nil =>
    have hp : pat = [] := by
      simpa [containsSub, List.isEmpty_iff] using h
    subst hp
    simp [replaceFirst]
  | cons c t ih =>
    cases hp : pat.isPrefixOf (c :: t) with
    | true =>
      have hle : pat.length ≤ (c :: t).length :=
        (List.isPrefixOf_iff_prefix.mp hp).length_le
      simp only [replaceFirst, hp, if_true, List.length_append, List.length_drop]
      omega
    | false =>
      have h2 : containsSub pat t = true := by
        have hh := h
        simp only [containsSub, hp, Bool.false_or] at hh
        exact hh
      have := ih h2
      simp only [replaceFirst, hp, Bool.false_eq_true, if_false, List.length_cons]
      omega

theorem replaceFirst_chain_ne (dom dl sec s : List Char)
    (h19 : dom.length = 19) (h16 : dl.length = 16) (h7 : sec.length = 7)
    (hc : containsSub dom s = true ∨ containsSub sec s = true) :
    replaceFirst sec [] (replaceFirst dom dl s) ≠ s := by
  intro h0
  cases hdom : containsSub dom s with
  | true =>
    have e1 := replaceFirst_length dom dl s hdom
    cases hsec : containsSub sec (replaceFirst dom dl s) with
    | false =>
      rw [replaceFirst_of_not_containsSub hsec] at h0
      rw [h0] at e1
      omega
    | true =>
      have e2 := replaceFirst_length sec [] (replaceFirst dom dl s) hsec
      have e3 := congrArg List.length h0
      simp only [List.length_nil] at e2
      omega
  | false =>
    have hr : replaceFirst dom dl s = s := replaceFirst_of_not_containsSub hdom
    rw [hr] at h0
    rcases hc with hd | hs2
    · exact absurd hd (by simp [hdom])
    · have e2 := replaceFirst_length sec [] s hs2
      have e3 := congrArg List.length h0
      simp only [List.length_nil] at e2
      omega

/-- With `cookieDomain = ".example.com"`, a cookie is a fixed point of the
per-cookie rewrite exactly when it contains neither the literal
`Domain=.example.com` nor the literal `Secure;`: if either occurs, the
rewrite strictly shrinks the cookie (19 characters become 16, or 7 are
removed), so the cookie changes. -/
theorem fixCookie_eq_self_iff (c : String) :
    fixCookie ".example.com" c = c ↔
      (containsSub "Domain=.example.com".data c.data = false
        ∧ containsSub "Secure;".data c.data = false) := by
  have hdd : ("Domain=".data ++ ".example.com".data : List Char)
      = "Domain=.example.com".data := by decide
  constructor
  · intro heq
    have h0 : replaceFirst "Secure;".data []
        (replaceFirst ("Domain=".data ++ ".example.com".data)
          "Domain=localhost".data c.data)
        = c.data := congrArg String.data heq
    rw [hdd] at h0
    by_contra hcon
    have hor : containsSub "Domain=.example.com".data c.data = true
        ∨ containsSub "Secure;".data c.data = true := by
      cases hA : containsSub "Domain=.example.com".data c.data with
      | true => exact Or.inl rfl
      | false =>
        cases hB : containsSub "Secure;".data c.data with
        | true => exact Or.inr rfl
        | false => exact absurd ⟨hA, hB⟩ hcon
    exact replaceFirst_chain_ne _ _ _ _ (by decide) (by decide) (by decide) hor h0
  · intro h
    obtain ⟨h1, h2⟩ := h
    simp only [fixCookie, hdd, replaceFirst_of_not_containsSub h1,
      replaceFirst_of_not_containsSub h2]

/-- C6 counterexample: an upstream response with no CORS headers reaches the
client with `access-control-allow-methods` still unset — the mounted
`proxyRes` handler forces only `allow-origin` and `allow-credentials`; the
handler that forces the methods list belongs to the never-mounted
`dynamicProxy`. -/
theorem c6_cors_headers_counterexample :
    (responseHeadersToClient "http://localhost:3000"
        ⟨none, none, none, none⟩).acam = none
    ∧ (none : Option String) ≠ some "GET, POST, PUT, PATCH, DELETE, OPTIONS" := by
  decide

/-- C6 amended: for every upstream response (success or error status alike),
the headers reaching the client have `access-control-allow-origin` forced to
the configured allowed origin and `access-control-allow-credentials` forced
to `"true"`, but `access-control-allow-methods` is passed through unchanged:
the fixed methods list is forced only by the `proxyRes` handler of the
unmounted `dynamicProxy` middleware, which no response passes through. -/
theorem c6_cors_headers (allowedOrigin : String) (cfg : Config) (h : RespHeaders) :
    (responseHeadersToClient allowedOrigin h).acao = some allowedOrigin
    ∧ (responseHeadersToClient allowedOrigin h).acac = some "true"
    ∧ (responseHeadersToClient allowedOrigin h).acam = h.acam
    ∧ (dynamicProxyResHeaders cfg h).acam
        = some "GET, POST, PUT, PATCH, DELETE, OPTIONS" := by
  refine ⟨rfl, rfl, rfl, ?_⟩
  simp only [dynamicProxyResHeaders]
  split
  · cases h.setCookie <;> simp
  · rfl

/-- C7 counterexample: the example response header
`sid=abc; Domain=.example.com; Secure; Path=/` reaches the client unchanged
(the cookie rewrite lives only in the unmounted `dynamicProxy`); moreover
even that unmounted rewrite would produce
`sid=abc; Domain=localhost;  Path=/` — with two spaces, as only the literal
token `Secure;` is removed — not the claimed single-space string; and a
cookie that does not contain the configured domain but does contain
`Secure;` would not pass through unchanged. -/
theorem c7_cookie_rewrite_counterexample :
    (responseHeadersToClient "http://localhost:3000"
        ⟨none, none, none, some ["sid=abc; Domain=.example.com; Secure; Path=/"]⟩).setCookie
      = some ["sid=abc; Domain=.example.com; Secure; Path=/"]
    ∧ some ["sid=abc; Domain=.example.com; Secure; Path=/"]
        ≠ some ["sid=abc; Domain=localhost; Path=/"]
    ∧ fixCookie ".example.com" "sid=abc; Domain=.example.com; Secure; Path=/"
        = "sid=abc; Domain=localhost;  Path=/"
    ∧ "sid=abc; Domain=localhost;  Path=/" ≠ "sid=abc; Domain=localhost; Path=/"
    ∧ fixCookie ".example.com" "sid=1; Secure; HttpOnly" ≠ "sid=1; Secure; HttpOnly" := by
  refine ⟨rfl, by decide, by decide, by decide, by decide⟩

/-- C7 amended: the response pipeline the client actually sees never touches
`set-cookie` (the cookie fix belongs to the unmounted `dynamicProxy`); the
unmounted per-cookie rewrite maps the example cookie to
`sid=abc; Domain=localhost;  Path=/` (double space — `Domain=<cookieDomain>`
replaced by `Domain=localhost` and the bare token `Secure;` removed), and it
leaves a cookie unchanged exactly when the cookie contains neither the
literal `Domain=.example.com` nor the literal `Secure;`. -/
theorem c7_cookie_rewrite (allowedOrigin : String) (h : RespHeaders) (c : String) :
    (responseHeadersToClient allowedOrigin h).setCookie = h.setCookie
    ∧ fixCookie ".example.com" "sid=abc; Domain=.example.com; Secure; Path=/"
        = "sid=abc; Domain=localhost;  Path=/"
    ∧ (fixCookie ".example.com" c = c ↔
        (containsSub "Domain=.example.com".data c.data = false
          ∧ containsSub "Secure;".data c.data = false)) :=
  ⟨rfl, by decide, fixCookie_eq_self_iff c⟩

/-- Witness for C7 at the concrete cookie `a=b`. -/
theorem c7_cookie_rewrite_witness :
    fixCookie ".example.com" "a=b" = "a=b" :=
  (c7_cookie_rewrite "http://localhost:3000" ⟨none, none, none, none⟩
    "a=b").2.2.mpr ⟨by decide, by decide⟩

/-- C10 counterexample: for a connection-refused transport error the mounted
proxy's `error` handler writes nothing to the client — it only logs — so no
JSON error body is emitted; the handler that answers
`500 Proxy error: <message>` belongs to the never-mounted `dynamicProxy`. -/
theorem c10_error_handler_counterexample :
    mountedProxyOnError ⟨"connect ECONNREFUSED 127.0.0.1:443"⟩ = .noResponse
    ∧ ErrorHandlerAction.noResponse
        ≠ .respond 500 "Proxy error: connect ECONNREFUSED 127.0.0.1:443" := by
  exact ⟨rfl, by decide⟩

/-- C10 amended: on a transport error the mounted proxy's `error` handler
(the only one requests pass through) sends no response to the client at all;
the single JSON 500 body `Proxy error: <message>` embedding the underlying
error text is produced only by the error handler of the unmounted
`dynamicProxy`, and only when response headers have not already been sent.
Both handlers are total functions: no error escapes this boundary. -/
theorem c10_error_handler (err : ProxyError) :
    mountedProxyOnError err = .noResponse
    ∧ dynamicProxyOnError err false
        = .respond 500 ("Proxy error: " ++ err.message)
    ∧ dynamicProxyOnError err true = .noResponse
    ∧ (500 ≤ 500 ∧ 500 < 600) := by
  exact ⟨rfl, rfl, rfl, by omega⟩

/-- Number of effective `close()` initiations on the target socket in a list
of effects. -/
def countCloseTarget : List BridgeOut → Nat
  | [] => 0
  | .closeTarget :: l => countCloseTarget l + 1
  | _ :: l => countCloseTarget l

/-- Number of effective `close()` initiations on the client socket in a list
of effects. -/
def countCloseClient : List BridgeOut → Nat
  | [] => 0
  | .closeClient :: l => countCloseClient l + 1
  | _ :: l => countCloseClient l

theorem countCloseTarget_append (a b : List BridgeOut) :
    countCloseTarget (a ++ b) = countCloseTarget a + countCloseTarget b := by
  induction a with
  | nil => simp [countCloseTarget]
  | cons o l ih => cases o <;> (simp [countCloseTarget, ih]; try omega)

theorem countCloseClient_append (a b : List BridgeOut) :
    countCloseClient (a ++ b) = countCloseClient a + countCloseClient b := by
  induction a with
  | nil => simp [countCloseClient]
  | cons o l ih => cases o <;> (simp [countCloseClient, ih]; try omega)

/-- Budget of still-possible effective closes of the target socket. -/
def targetClosable (st : PairState) : Nat :=
  if st.target = .OPEN then 1 else 0

/-- Budget of still-possible effective closes of the client socket. -/
def clientClosable (st : PairState) : Nat :=
  if st.client = .OPEN then 1 else 0

theorem stepBridge_closeTarget_budget (origin : String) (st : PairState)
    (ev : BridgeEv) :
    countCloseTarget (stepBridge origin st ev).2
        + targetClosable (stepBridge origin st ev).1
      ≤ targetClosable st := by
  obtain ⟨c, t⟩ := st
  cases ev <;> cases c <;> cases t <;>
    simp [stepBridge, closeSock, targetClosable, countCloseTarget]

theorem stepBridge_closeClient_budget (origin : String) (st : PairState)
    (ev : BridgeEv) :
    countCloseClient (stepBridge origin st ev).2
        + clientClosable (stepBridge origin st ev).1
      ≤ clientClosable st := by
  obtain ⟨c, t⟩ := st
  cases ev <;> cases c <;> cases t <;>
    simp [stepBridge, closeSock, clientClosable, countCloseClient]

theorem runBridge_closeTarget_budget (origin : String) (evs : List BridgeEv)
    (st : PairState) :
    countCloseTarget (runBridge origin st evs).2 ≤ targetClosable st := by
  induction evs generalizing st with
  | nil => simp [runBridge, countCloseTarget]
  | cons ev evs ih =>
    have h1 := stepBridge_closeTarget_budget origin st ev
    have h2 := ih (stepBridge origin st ev).1
    simp only [runBridge, countCloseTarget_append]
    omega

theorem runBridge_closeClient_budget (origin : String) (evs : List BridgeEv)
    (st : PairState) :
    countCloseClient (runBridge origin st evs).2 ≤ clientClosable st := by
  induction evs generalizing st with
  | nil => simp [runBridge, countCloseClient]
  | cons ev evs ih =>
    have h1 := stepBridge_closeClient_budget origin st ev
    have h2 := ih (stepBridge origin st ev).1
    simp only [runBridge, countCloseClient_append]
    omega

theorem stepBridge_nonopen (origin : String) (st : PairState) (ev : BridgeEv)
    (h1 : st.client ≠ .OPEN) (h2 : st.target ≠ .OPEN) :
    (stepBridge origin st ev).1.client ≠ .OPEN
    ∧ (stepBridge origin st ev).1.target ≠ .OPEN
    ∧ ∀ o ∈ (stepBridge origin st ev).2, isSend o = false := by
  obtain ⟨c, t⟩ := st
  cases ev <;> cases c <;> cases t <;>
    simp_all [stepBridge, closeSock, isSend]

theorem runBridge_nonopen (origin : String) (evs : List BridgeEv)
    (st : PairState) (h1 : st.client ≠ .OPEN) (h2 : st.target ≠ .OPEN) :
    ∀ o ∈ (runBridge origin st evs).2, isSend o = false := by
  induction evs generalizing st with
  | nil => simp [runBridge]
  | cons ev evs ih =>
    obtain ⟨hs1, hs2, hs3⟩ := stepBridge_nonopen origin st ev h1 h2
    simp only [runBridge, List.mem_append]
    intro o ho
    rcases ho with ho | ho
    · exact hs3 o ho
    · exact ih (stepBridge origin st ev).1 hs1 hs2 o ho

/-- The two sockets of a pair leave `OPEN` together: in every reachable
state, the client socket is `OPEN` exactly when the target socket is. -/
def InvPair (st : PairState) : Prop :=
  (st.client = .OPEN ↔ st.target = .OPEN)

theorem stepBridge_inv (origin : String) (st : PairState) (ev : BridgeEv)
    (h : InvPair st) :
    InvPair (stepBridge origin st ev).1 := by
  obtain ⟨c, t⟩ := st
  cases ev <;> cases c <;> cases t <;>
    simp_all [stepBridge, closeSock, InvPair]

theorem runBridge_inv (origin : String) (evs : List BridgeEv)
    (st : PairState) (h : InvPair st) :
    InvPair (runBridge origin st evs).1 := by
  induction evs generalizing st with
  | nil => simpa [runBridge] using h
  | cons ev evs ih =>
    exact ih (stepBridge origin st ev).1 (stepBridge_inv origin st ev h)

/-- C5: lifecycle of an open Socket Pair.  Over any run from the bridged
(both-`OPEN`) configuration, at most one effective `close()` is ever
initiated on each socket (`ws.close()` on a socket already `CLOSING` or
`CLOSED` is a no-op, so closing is idempotent); once the pair has left the
both-`OPEN` state no frame is forwarded in either direction by any further
events; and from any reachable state in which the pair is still open, a
`close` or `error` event on either socket immediately initiates the single
close of the other socket. -/
theorem c5_socket_pair_lifecycle (origin : String) (evs evs2 : List BridgeEv)
    (hstop : ¬((runBridge origin initPair evs).1.client = .OPEN
        ∧ (runBridge origin initPair evs).1.target = .OPEN)) :
    countCloseTarget (runBridge origin initPair evs).2 ≤ 1
    ∧ countCloseClient (runBridge origin initPair evs).2 ≤ 1
    ∧ (∀ o ∈ (runBridge origin (runBridge origin initPair evs).1 evs2).2,
        isSend o = false)
    ∧ (∀ evs3, (runBridge origin initPair evs3).1.target = .OPEN →
        (stepBridge origin (runBridge origin initPair evs3).1 .clientClose).2
            = [.closeTarget]
        ∧ (stepBridge origin (runBridge origin initPair evs3).1 .clientError).2
            = [.closeTarget]
        ∧ (stepBridge origin (runBridge origin initPair evs3).1 .targetClose).2
            = [.closeClient]
        ∧ (stepBridge origin (runBridge origin initPair evs3).1 .targetError).2
            = [.closeClient]) := by
  have hib : InvPair initPair := by simp [InvPair, initPair]
  refine ⟨?_, ?_, ?_, ?_⟩
  · have h := runBridge_closeTarget_budget origin evs initPair
    have : targetClosable initPair = 1 := by simp [targetClosable, initPair]
    omega
  · have h := runBridge_closeClient_budget origin evs initPair
    have : clientClosable initPair = 1 := by simp [clientClosable, initPair]
    omega
  · have hinv := runBridge_inv origin evs initPair hib
    have hc : (runBridge origin initPair evs).1.client ≠ .OPEN := by
      intro hc
      exact hstop ⟨hc, hinv.mp hc⟩
    have ht : (runBridge origin initPair evs).1.target ≠ .OPEN := by
      intro ht
      exact hstop ⟨hinv.mpr ht, ht⟩
    exact runBridge_nonopen origin evs2 _ hc ht
  · intro evs3 ht
    have hinv := runBridge_inv origin evs3 initPair hib
    have hc : (runBridge origin initPair evs3).1.client = .OPEN := hinv.mpr ht
    revert hc ht
    generalize (runBridge origin initPair evs3).1 = st
    obtain ⟨c, t⟩ := st
    intro ht hc
    cases hc
    cases ht
    exact ⟨rfl, rfl, rfl, rfl⟩

/-- Witness for C5: after the client closes, the pair has left `OPEN`, the
target socket was closed exactly once, and a subsequent target message is
not forwarded. -/
theorem c5_socket_pair_lifecycle_witness :
    countCloseTarget (runBridge "http://h" initPair [BridgeEv.clientClose]).2 ≤ 1
    ∧ (∀ o ∈ (runBridge "http://h"
          (runBridge "http://h" initPair [BridgeEv.clientClose]).1
          [BridgeEv.targetMessage "40/,x"]).2,
        isSend o = false) := by
  have h := c5_socket_pair_lifecycle "http://h" [BridgeEv.clientClose]
    [BridgeEv.targetMessage "40/,x"] (by decide)
  exact ⟨h.1, h.2.2.1⟩
